import Mathlib

/-!
Verification of the fp-bot repository's subscription/key-assignment layer.

The repository ships several React/TypeScript front-ends (an admin panel in
`src/unnamed/part_000`, a VPN mini-app embedded in `src/install.sh`, a FunPay
mini-app client in `src/src/miniapp/src/api.js`).  The pure computations those
front-ends perform (status mapping, days-left derivation, retry loop, modal
toggle logic) are embedded below directly from the source.  The backend core
(Squad Selector, Lifecycle Manager, Mass-Action Executor, Ledger) is consumed
through HTTP endpoints only; where a claim is decided by that missing core,
the definition is modelled from the specification and marked as such.
-/

namespace FpBot

/-! ## User status mapping (admin panel, `AuthenticatedApp` users load)

Embeds `src/unnamed/part_000` lines 1451–1478:
`status: (u.in_blacklist || u.is_banned) ? 'Banned' : ((u.status as UserStatus) || 'Trial')`.
-/

inductive UserStatus where
  | Active
  | Trial
  | Banned
  | Expired
deriving DecidableEq, Repr

/-- The status field computed by the admin panel when mapping an API user row.
`stored = none` models a falsy `u.status` (absent/empty), in which case the
JS `|| 'Trial'` fallback applies. -/
def mappedUserStatus (inBlacklist isBanned : Bool) (stored : Option UserStatus) : UserStatus :=
  if inBlacklist || isBanned then UserStatus.Banned else stored.getD UserStatus.Trial

/-! ## Days-left derivation (admin panel, `refetchKeys`)

Embeds `src/unnamed/part_000` lines 1390–1413:
`expiry: k.expiry_date ? Math.ceil((new Date(k.expiry_date).getTime() - Date.now()) / (1000*60*60*24)) : 0`.
Timestamps are integer milliseconds. -/

def dayMs : Int := 1000 * 60 * 60 * 24

/-- `Math.ceil (a / b)` for integer `a` and positive integer `b`:
`⌈a / b⌉ = -⌊-a / b⌋`. -/
def jsCeilDiv (a b : Int) : Int := -((-a).fdiv b)

/-- The `expiry` (days-left) field the admin panel computes for one key row.
`expiryDate = none` models a falsy `k.expiry_date`. -/
def mappedDaysLeft (expiryDate : Option Int) (now : Int) : Int :=
  match expiryDate with
  | some d => jsCeilDiv (d - now) dayMs
  | none => 0

/-! ## Key-creation modal (admin panel, `CreateKeyModal`)

Embeds `src/unnamed/part_000` lines 733–769 and 813–816:
the `handleCreate` duration choice `const finalDays = isForever ? 27394 : params.days;`,
the two toggle handlers
`onChange={() => { setIsTrial(!isTrial); setIsForever(false); }}` and
`onChange={() => { setIsForever(!isForever); setIsTrial(false); }}`,
and the parameter-reset effect
`useEffect(() => { if(isTrial) { setParams({days:1, traffic:5, devices:1}); }
else if (isForever) { setParams(prev => ({...prev, traffic:0, devices:10})); }
else { setParams({days:30, traffic:100, devices:5}); } }, [isTrial, isForever])`. -/

structure ModalParams where
  days : Nat
  traffic : Nat
  devices : Nat
deriving DecidableEq, Repr

structure ModalState where
  isTrial : Bool
  isForever : Bool
  params : ModalParams
deriving DecidableEq, Repr

/-- `const finalDays = isForever ? 27394 : params.days;` from `handleCreate`. -/
def finalDays (isForever : Bool) (paramsDays : Nat) : Nat :=
  if isForever then 27394 else paramsDays

/-- The `useEffect` body that resets `params` after `isTrial`/`isForever` change. -/
def applyParamsEffect (s : ModalState) : ModalState :=
  if s.isTrial then { s with params := ⟨1, 5, 1⟩ }
  else if s.isForever then
    { s with params := { s.params with traffic := 0, devices := 10 } }
  else { s with params := ⟨30, 100, 5⟩ }

inductive ModalToggle where
  | trial
  | forever
deriving DecidableEq, Repr

/-- One toggle click followed by the re-run of the params effect (React runs the
`useEffect` after the state change, with the updated flag values). -/
def modalStep (s : ModalState) : ModalToggle → ModalState
  | ModalToggle.trial =>
      applyParamsEffect { s with isTrial := !s.isTrial, isForever := false }
  | ModalToggle.forever =>
      applyParamsEffect { s with isForever := !s.isForever, isTrial := false }

/-- Initial modal state: `useState(false)` twice and
`useState({ days: 30, traffic: 100, devices: 5 })`, after the mount effect. -/
def modalInit : ModalState := ⟨false, false, ⟨30, 100, 5⟩⟩

def modalRun (togs : List ModalToggle) : ModalState :=
  togs.foldl modalStep modalInit

/-! ## FunPay mini-app API client (`src/src/miniapp/src/api.js`, `request`)

Embeds lines 17–58: the retry loop
`for (let attempt = 0; attempt <= RETRY_MAX; attempt++)` with
`RETRY_STATUSES = [502, 503, 504]`, `RETRY_MAX = 2`, the retry conditions on
non-ok responses and on caught network `TypeError` / `AbortError`, and the
error-message selection `err.detail || err.message || 'HTTP status: text'`.
Each fetch attempt's outcome is given by an oracle `fetchAt : Nat → FetchOutcome`. -/

def RETRY_STATUSES : List Nat := [502, 503, 504]

def RETRY_MAX : Nat := 2

/-- Outcome of one `fetch` call, seen through the code's own distinctions:
an ok response; a non-ok HTTP response whose error body carries optional
truthy `detail` / `message` fields (`none` = absent or falsy); a `TypeError`
whose message contains `'fetch'` or `'Failed'` (the code's `isNetwork` test);
an `AbortError`; or any other exception. -/
inductive FetchOutcome where
  | ok (body : String)
  | http (status : Nat) (detail : Option String) (message : Option String) (statusText : String)
  | netTypeError
  | abortError
  | otherError (name msg : String)
deriving DecidableEq, Repr

/-- Errors `request` can throw, tagged by which `throw` site produced them. -/
inductive ReqError where
  | httpError (msg : String)
  | networkFail
  | aborted
  | other (name msg : String)
  | exhausted
deriving DecidableEq, Repr

/-- `err.detail || err.message || 'HTTP ...: ...'` from the non-ok branch. -/
def httpMsg (status : Nat) (detail message : Option String) (statusText : String) : String :=
  match detail with
  | some d => d
  | none =>
    match message with
    | some m => m
    | none => s!"HTTP {status}: {statusText}"

/-- Whether the loop's conditions allow a retry on this outcome (ignoring the
`attempt < RETRY_MAX` bound). -/
def retryableOutcome : FetchOutcome → Bool
  | FetchOutcome.http status _ _ _ => RETRY_STATUSES.contains status
  | FetchOutcome.netTypeError => true
  | FetchOutcome.abortError => true
  | _ => false

/-- The body of `request`'s loop, starting at `attempt`; returns the result and
the number of `fetch` calls made.  `fuel` bounds the recursion; the loop
itself exits in its last iteration, so the `fuel = 0` case is unreachable
from `requestRun`. -/
def requestGo (fetchAt : Nat → FetchOutcome) : Nat → Nat → Except ReqError String × Nat
  | 0, _ => (Except.error ReqError.exhausted, 0)
  | fuel + 1, attempt =>
    match fetchAt attempt with
    | FetchOutcome.ok body => (Except.ok body, 1)
    | FetchOutcome.http status detail message statusText =>
      if RETRY_STATUSES.contains status && attempt < RETRY_MAX then
        let r := requestGo fetchAt fuel (attempt + 1)
        (r.1, r.2 + 1)
      else
        (Except.error (ReqError.httpError (httpMsg status detail message statusText)), 1)
    | FetchOutcome.netTypeError =>
      if attempt < RETRY_MAX then
        let r := requestGo fetchAt fuel (attempt + 1)
        (r.1, r.2 + 1)
      else
        (Except.error ReqError.networkFail, 1)
    | FetchOutcome.abortError =>
      if attempt < RETRY_MAX then
        let r := requestGo fetchAt fuel (attempt + 1)
        (r.1, r.2 + 1)
      else
        (Except.error ReqError.aborted, 1)
    | FetchOutcome.otherError name msg =>
      (Except.error (ReqError.other name msg), 1)

/-- `request(method, path, body)`: run the loop from `attempt = 0` with exactly
the `RETRY_MAX + 1` iterations the `for` loop can perform. -/
def requestRun (fetchAt : Nat → FetchOutcome) : Except ReqError String × Nat :=
  requestGo fetchAt (RETRY_MAX + 1) 0

/-! ## Squad Selector (Balancer)

The selector itself runs in the backend, which is not among the shipped
files; only its data shape (`SquadConfig` in `src/unnamed/part_000` lines
3450–3459) and the admin-panel description of its policy (lines 3293–3304)
are visible.  The algorithm below is modelled from the spec, §4.2. -/

/-- The squad record, fields as in the panel's `SquadConfig` interface. -/
structure Squad where
  squad_uuid : String
  squad_name : String
  squad_type : String
  max_users : Nat
  current_users : Nat
  is_active : Bool
  priority : Nat
deriving DecidableEq, Repr

/-- Modelled from the spec: §4.2 candidate set — "active squads of `type`
intersected with `preferredUuids` if non-empty, else all active squads of
`type`, excluding squads already at `maxUsers` (when `maxUsers > 0`)". -/
def pickCandidates (squads : List Squad) (ty : String) (preferred : List String) : List Squad :=
  let base := squads.filter (fun s => s.is_active && s.squad_type == ty)
  let pool := if preferred.isEmpty then base
              else base.filter (fun s => preferred.contains s.squad_uuid)
  pool.filter (fun s => !(decide (0 < s.max_users) && decide (s.max_users ≤ s.current_users)))

/-- Strict lexicographic order on the selection key
`(currentUsers, priority, uuid)`: lower `currentUsers` first, ties by lower
`priority`, then by lexically smaller uuid (spec §4.2 tie-break rule).
Uuid strings are compared by the lexicographic order of their character
lists, which is the usual lexical order on strings. -/
def squadKeyLt (a b : Squad) : Prop :=
  a.current_users < b.current_users ∨
    (a.current_users = b.current_users ∧
      (a.priority < b.priority ∨
        (a.priority = b.priority ∧ a.squad_uuid.data < b.squad_uuid.data)))

instance (a b : Squad) : Decidable (squadKeyLt a b) := by
  unfold squadKeyLt; infer_instance

/-- Keep `acc` unless the next squad `s` is strictly better under the
selection order: the fold step of the least-loaded choice. -/
def pickBetter (acc s : Squad) : Squad :=
  if squadKeyLt s acc then s else acc

/-- Modelled from the spec: §4.2 `pick(type, preferredUuids?)` — least-loaded
candidate under `squadKeyLt`, or `NoEligibleSquad` (as `none`) when the
candidate set is empty. -/
def pickSquad (squads : List Squad) (ty : String) (preferred : List String) : Option Squad :=
  match pickCandidates squads ty preferred with
  | [] => none
  | c :: cs => some (cs.foldl pickBetter c)

/-- `pick` returning the chosen squad's uuid, as in the spec's contract. -/
def pickUuid (squads : List Squad) (ty : String) (preferred : List String) : Option String :=
  (pickSquad squads ty preferred).map Squad.squad_uuid

/-! ## Key effective status

The status actually rendered comes from the backend; the admin panel only
shows stored values (`handleUpdateKey`, `handleToggleBlock` in
`src/unnamed/part_000`).  The function below is modelled from the spec
(§3 Key invariant, §8 first property). -/

inductive KeyStatus where
  | Active
  | Expired
  | Blocked
deriving DecidableEq, Repr

/-- A key record: stored status is kept alongside the data it is derived
from, so independence from it can be stated. -/
structure KeyRec where
  userId : Nat
  expiryDate : Int
  blocked : Bool
  storedStatus : KeyStatus
deriving DecidableEq, Repr

/-- Modelled from the spec: "`effectiveStatus(key, now)` is `Blocked` if
manually blocked, else `Expired` if `now >= expiryDate`, else `Active` —
independent of what is persisted in the `status` field" (§8). -/
def effectiveStatus (k : KeyRec) (now : Int) : KeyStatus :=
  if k.blocked then KeyStatus.Blocked
  else if k.expiryDate ≤ now then KeyStatus.Expired
  else KeyStatus.Active

/-! ## Lifecycle Manager: `extend` (spec §4.3/§4.4)

The `extend` implementation lives in the backend behind
`POST /subscription/extend` (called from `extendSubscription` in
`src/install.sh` lines 2033–2081, which itself refuses to issue the call when
`balance < price`).  Modelled from the spec. -/

structure UserRec where
  balance : Int
deriving DecidableEq, Repr

structure LedgerTx where
  userId : Nat
  amount : Int
deriving DecidableEq, Repr

/-- Core state: users and keys by id, plus the append-only transaction log. -/
structure CoreState where
  users : List (Nat × UserRec)
  keys : List (Nat × KeyRec)
  txs : List LedgerTx
deriving DecidableEq, Repr

def findUser (st : CoreState) (uid : Nat) : Option UserRec :=
  (st.users.find? (fun p => p.1 == uid)).map Prod.snd

def findKey (st : CoreState) (kid : Nat) : Option KeyRec :=
  (st.keys.find? (fun p => p.1 == kid)).map Prod.snd

inductive CoreError where
  | InsufficientBalance
  | NotFound
deriving DecidableEq, Repr

def updUser (uid : Nat) (u : UserRec) (l : List (Nat × UserRec)) : List (Nat × UserRec) :=
  l.map (fun p => if p.1 == uid then (p.1, u) else p)

def updKey (kid : Nat) (k : KeyRec) (l : List (Nat × KeyRec)) : List (Nat × KeyRec) :=
  l.map (fun p => if p.1 == kid then (p.1, k) else p)

/-- Modelled from the spec: §4.3 `extend(keyId, days, price)` — "Requires
`user.balance >= price`; debits balance and appends Transaction atomically
with the expiry mutation", with §4.4's `InsufficientBalance` performing no
mutation, and "New `expiryDate = max(now, currentExpiryDate) + days`".
Returns the resulting state together with the outcome, so that "no partial
mutation" is expressible on the error paths. -/
def extend (st : CoreState) (keyId : Nat) (days : Int) (price : Int) (now : Int) :
    CoreState × Except CoreError KeyRec :=
  match findKey st keyId with
  | none => (st, Except.error CoreError.NotFound)
  | some k =>
    match findUser st k.userId with
    | none => (st, Except.error CoreError.NotFound)
    | some u =>
      if u.balance < price then
        (st, Except.error CoreError.InsufficientBalance)
      else
        let k' : KeyRec := { k with expiryDate := max now k.expiryDate + days * dayMs }
        let u' : UserRec := { u with balance := u.balance - price }
        ({ users := updUser k.userId u' st.users
           keys := updKey keyId k' st.keys
           txs := st.txs ++ [⟨k.userId, -price⟩] },
         Except.ok k')

/-! ## Mass-Action Executor (spec §4.5)

The executor runs in the backend behind `POST /panel/users/mass-action`
(invoked by `UserActionModal`'s `onConfirm`, `src/unnamed/part_000` lines
1607–1618).  Modelled from the spec: per-target invocation of the single-item
operation, isolating failures, with per-entity state so that each target's
operation reads and writes only its own record. -/

structure MassOutcome (ε : Type) where
  succeeded : List Nat
  failed : List (Nat × ε)
deriving Repr

/-- Modelled from the spec: §4.5 `execute` — iterate the target ids, apply the
single-item operation `op` to each target's own state, collect per-item
outcomes, and never abort the batch on an item failure. -/
def massExecute {σ ε : Type} (op : Nat → σ → Except ε σ) :
    List Nat → (Nat → σ) → (Nat → σ) × MassOutcome ε
  | [], st => (st, ⟨[], []⟩)
  | i :: rest, st =>
    match op i (st i) with
    | Except.ok s' =>
      let r := massExecute op rest (fun j => if j == i then s' else st j)
      (r.1, ⟨i :: r.2.succeeded, r.2.failed⟩)
    | Except.error e =>
      let r := massExecute op rest st
      (r.1, ⟨r.2.succeeded, (i, e) :: r.2.failed⟩)

/-! ## Helper lemmas -/

/-- `jsCeilDiv a b` is exactly the ceiling of the rational `a / b`: it is the
unique integer `n` with `(n - 1) * b < a ≤ n * b`. -/
theorem jsCeilDiv_eq_iff {a b n : Int} (hb : 0 < b) :
    jsCeilDiv a b = n ↔ (n - 1) * b < a ∧ a ≤ n * b := by
  have hfd : (-a).fdiv b = (-a) / b := Int.fdiv_eq_ediv _ (Int.le_of_lt hb)
  have h1 : (-n) ≤ (-a) / b ↔ (-n) * b ≤ -a := Int.le_ediv_iff_mul_le hb
  have h2 : (-a) / b < (-n) + 1 ↔ -a < ((-n) + 1) * b := Int.ediv_lt_iff_lt_mul hb
  have e1 : (-n) * b = -(n * b) := by ring
  have e2 : ((-n) + 1) * b = -((n - 1) * b) := by ring
  rw [e1] at h1
  rw [e2] at h2
  unfold jsCeilDiv
  rw [hfd]
  constructor
  · intro h
    have he : (-a) / b = -n := by linarith
    rw [he] at h1 h2
    exact ⟨by have := h2.mp (by linarith); linarith, by have := h1.mp (le_refl _); linarith⟩
  · rintro ⟨hl, hr⟩
    have hge : -n ≤ (-a) / b := h1.mpr (by linarith)
    have hlt : (-a) / b < -n + 1 := h2.mpr (by linarith)
    have he : (-a) / b = -n := le_antisymm (by linarith) hge
    rw [he]
    ring

/-- Invariant of the key-creation modal state targeted by C10. -/
def ModalInv (s : ModalState) : Prop :=
  ¬(s.isTrial = true ∧ s.isForever = true) ∧
    (s.isTrial = true → s.params = ⟨1, 5, 1⟩) ∧
    (s.isForever = true → s.params.traffic = 0 ∧ s.params.devices = 10)

theorem modalStep_inv (s : ModalState) (t : ModalToggle) : ModalInv (modalStep s t) := by
  cases t
  · cases h : s.isTrial <;>
      simp [modalStep, applyParamsEffect, ModalInv, h]
  · cases h : s.isForever <;> cases h2 : s.isTrial <;>
      simp [modalStep, applyParamsEffect, ModalInv, h, h2]

theorem modalFoldl_inv (togs : List ModalToggle) (s : ModalState) (hs : ModalInv s) :
    ModalInv (togs.foldl modalStep s) := by
  induction togs generalizing s with
  | nil => exact hs
  | cons t rest ih => exact ih (modalStep s t) (modalStep_inv s t)

theorem requestGo_count_le (fetchAt : Nat → FetchOutcome) :
    ∀ fuel attempt, (requestGo fetchAt fuel attempt).2 ≤ fuel := by
  intro fuel
  induction fuel with
  | zero => intro _; simp [requestGo]
  | succ n ih =>
    intro attempt
    unfold requestGo
    cases h : fetchAt attempt <;> simp only []
    · simp
    · split
      · have := ih (attempt + 1)
        simp
        omega
      · simp
    · split
      · have := ih (attempt + 1)
        simp
        omega
      · simp
    · split
      · have := ih (attempt + 1)
        simp
        omega
      · simp
    · simp

theorem requestGo_retries_retryable (fetchAt : Nat → FetchOutcome) :
    ∀ fuel attempt j, j + 1 < (requestGo fetchAt fuel attempt).2 →
      retryableOutcome (fetchAt (attempt + j)) = true := by
  intro fuel
  induction fuel with
  | zero => intro attempt j h; simp [requestGo] at h
  | succ n ih =>
    intro attempt j h
    unfold requestGo at h
    cases hf : fetchAt attempt <;> rw [hf] at h <;> simp only [] at h
    case ok body => simp at h
    case http status d m st =>
      split at h
      · rename_i hc
        have hcontains : RETRY_STATUSES.contains status = true := by
          simpa using (Bool.and_eq_true _ _).mp hc |>.1
        cases j with
        | zero =>
          simp only [Nat.add_zero, hf, retryableOutcome]
          exact hcontains
        | succ jj =>
          have hj : jj + 1 < (requestGo fetchAt n (attempt + 1)).2 := by
            simp at h
            omega
          have := ih (attempt + 1) jj hj
          have harith : attempt + 1 + jj = attempt + (jj + 1) := by omega
          rwa [harith] at this
      · simp at h
    case netTypeError =>
      split at h
      · cases j with
        | zero => simp [retryableOutcome, hf]
        | succ jj =>
          have hj : jj + 1 < (requestGo fetchAt n (attempt + 1)).2 := by
            simp at h
            omega
          have := ih (attempt + 1) jj hj
          have harith : attempt + 1 + jj = attempt + (jj + 1) := by omega
          rwa [harith] at this
      · simp at h
    case abortError =>
      split at h
      · cases j with
        | zero => simp [retryableOutcome, hf]
        | succ jj =>
          have hj : jj + 1 < (requestGo fetchAt n (attempt + 1)).2 := by
            simp at h
            omega
          have := ih (attempt + 1) jj hj
          have harith : attempt + 1 + jj = attempt + (jj + 1) := by omega
          rwa [harith] at this
      · simp at h
    case otherError name msg => simp at h

theorem squadKeyLt_irrefl (a : Squad) : ¬ squadKeyLt a a := by
  intro h
  rcases h with h | ⟨_, h | ⟨_, h⟩⟩
  · omega
  · omega
  · exact lt_irrefl _ h

theorem squadKeyLt_trans {a b c : Squad} (h1 : squadKeyLt a b) (h2 : squadKeyLt b c) :
    squadKeyLt a c := by
  rcases h1 with h1 | ⟨e1, h1 | ⟨f1, h1⟩⟩ <;> rcases h2 with h2 | ⟨e2, h2 | ⟨f2, h2⟩⟩
  all_goals first
    | exact Or.inl (by omega)
    | exact Or.inr ⟨by omega, Or.inl (by omega)⟩
    | exact Or.inr ⟨by omega, Or.inr ⟨by omega, lt_trans h1 h2⟩⟩

theorem squadKeyLt_of_not_lt {x c r : Squad} (hnx : ¬ squadKeyLt x c)
    (hxr : squadKeyLt x r) : squadKeyLt c r := by
  unfold squadKeyLt at hnx
  push_neg at hnx
  obtain ⟨hcu, hrest⟩ := hnx
  rcases hxr with h | ⟨e, h | ⟨ep, h⟩⟩
  · exact Or.inl (by omega)
  · by_cases hc : x.current_users = c.current_users
    · have hp := (hrest hc).1
      exact Or.inr ⟨by omega, Or.inl (by omega)⟩
    · exact Or.inl (by omega)
  · by_cases hc : x.current_users = c.current_users
    · obtain ⟨hp, hu⟩ := hrest hc
      by_cases hpe : x.priority = c.priority
      · exact Or.inr ⟨by omega, Or.inr ⟨by omega, lt_of_le_of_lt (hu hpe) h⟩⟩
      · exact Or.inr ⟨by omega, Or.inl (by omega)⟩
    · exact Or.inl (by omega)

theorem pickBetter_cases (c x : Squad) : pickBetter c x = c ∨ pickBetter c x = x := by
  unfold pickBetter
  split
  · exact Or.inr rfl
  · exact Or.inl rfl

theorem foldl_pickBetter_mem (cs : List Squad) :
    ∀ c : Squad, cs.foldl pickBetter c ∈ c :: cs := by
  induction cs with
  | nil => intro c; simp
  | cons x xs ih =>
    intro c
    simp only [List.foldl_cons]
    have h := ih (pickBetter c x)
    rcases List.mem_cons.mp h with h | h
    · rcases pickBetter_cases c x with h2 | h2 <;> rw [h2] at h ⊢ <;> rw [h] <;> simp
    · exact List.mem_cons_of_mem _ (List.mem_cons_of_mem _ h)

theorem foldl_pickBetter_min (cs : List Squad) :
    ∀ c : Squad, ∀ t ∈ c :: cs, ¬ squadKeyLt t (cs.foldl pickBetter c) := by
  induction cs with
  | nil =>
    intro c t ht
    rw [List.mem_singleton] at ht
    subst ht
    exact squadKeyLt_irrefl t
  | cons x xs ih =>
    intro c t ht
    simp only [List.foldl_cons]
    by_cases hlt : squadKeyLt x c
    · have hpb : pickBetter c x = x := if_pos hlt
      rw [hpb]
      rcases List.mem_cons.mp ht with h1 | ht2
      · rw [h1]
        intro hcon
        exact ih x x (List.mem_cons_self x xs) (squadKeyLt_trans hlt hcon)
      · rcases List.mem_cons.mp ht2 with h1 | ht3
        · rw [h1]
          exact ih x x (List.mem_cons_self x xs)
        · exact ih x t (List.mem_cons_of_mem _ ht3)
    · have hpb : pickBetter c x = c := if_neg hlt
      rw [hpb]
      rcases List.mem_cons.mp ht with h1 | ht2
      · rw [h1]
        exact ih c c (List.mem_cons_self c xs)
      · rcases List.mem_cons.mp ht2 with h1 | ht3
        · rw [h1]
          intro hcon
          exact ih c c (List.mem_cons_self c xs) (squadKeyLt_of_not_lt hlt hcon)
        · exact ih c t (List.mem_cons_of_mem _ ht3)

theorem pickSquad_spec (squads : List Squad) (ty : String) (preferred : List String)
    (s : Squad) (hs : pickSquad squads ty preferred = some s) :
    s ∈ pickCandidates squads ty preferred ∧
      ∀ t ∈ pickCandidates squads ty preferred, ¬ squadKeyLt t s := by
  have h0 : pickSquad squads ty preferred =
      match pickCandidates squads ty preferred with
      | [] => none
      | c :: cs => some (cs.foldl pickBetter c) := rfl
  rw [h0] at hs
  cases hc : pickCandidates squads ty preferred with
  | nil => rw [hc] at hs; exact absurd hs (by simp)
  | cons c cs =>
    rw [hc] at hs
    have hseq : cs.foldl pickBetter c = s := by
      simpa using hs
    rw [← hseq]
    exact ⟨foldl_pickBetter_mem cs c, foldl_pickBetter_min cs c⟩

theorem extend_ok_blocked (st : CoreState) (kid : Nat) (days price now : Int)
    (k k2 : KeyRec) (hk : findKey st kid = some k)
    (h : (extend st kid days price now).2 = Except.ok k2) :
    k2.blocked = k.blocked := by
  unfold extend at h
  rw [hk] at h
  cases hu : findUser st k.userId <;> simp only [hu] at h
  · simp at h
  · split at h <;> simp_all
    subst h
    rfl

theorem massExecute_spec {σ ε : Type} (op : Nat → σ → Except ε σ) :
    ∀ (ids : List Nat) (st : Nat → σ), ids.Nodup →
      (massExecute op ids st).2.succeeded =
        ids.filter (fun i => (op i (st i)).toOption.isSome) ∧
      (massExecute op ids st).2.failed =
        ids.filterMap (fun i =>
          match op i (st i) with
          | Except.error e => some (i, e)
          | Except.ok _ => none) ∧
      (∀ j, j ∉ ids → (massExecute op ids st).1 j = st j) ∧
      (∀ i ∈ ids, ∀ s', op i (st i) = Except.ok s' → (massExecute op ids st).1 i = s') ∧
      (∀ i ∈ ids, ∀ e, op i (st i) = Except.error e →
        (massExecute op ids st).1 i = st i ∧ (i, e) ∈ (massExecute op ids st).2.failed) := by
  intro ids
  induction ids with
  | nil =>
    intro st _
    refine ⟨rfl, rfl, fun j _ => rfl, ?_, ?_⟩ <;> intro i hi <;> exact absurd hi (by simp)
  | cons i rest ih =>
    intro st hnd
    have hni : i ∉ rest := (List.nodup_cons.mp hnd).1
    have hnr : rest.Nodup := (List.nodup_cons.mp hnd).2
    cases hop : op i (st i) with
    | ok s' =>
      have hred : massExecute op (i :: rest) st =
          ((massExecute op rest (fun j => if j == i then s' else st j)).1,
           ⟨i :: (massExecute op rest (fun j => if j == i then s' else st j)).2.succeeded,
            (massExecute op rest (fun j => if j == i then s' else st j)).2.failed⟩) := by
        simp only [massExecute, hop]
      set st2 : Nat → σ := fun j => if j == i then s' else st j with hst2
      have hsame : ∀ j ∈ rest, st2 j = st j := by
        intro j hj
        have : j ≠ i := fun hji => hni (hji ▸ hj)
        simp [hst2, this]
      have hst2i : st2 i = s' := by simp [hst2]
      obtain ⟨ih1, ih2, ih3, ih4, ih5⟩ := ih st2 hnr
      have hfilter : rest.filter (fun j => (op j (st2 j)).toOption.isSome) =
          rest.filter (fun j => (op j (st j)).toOption.isSome) :=
        List.filter_congr (fun j hj => by rw [hsame j hj])
      have hfmap : rest.filterMap (fun j =>
            match op j (st2 j) with
            | Except.error e => some (j, e)
            | Except.ok _ => none) =
          rest.filterMap (fun j =>
            match op j (st j) with
            | Except.error e => some (j, e)
            | Except.ok _ => none) :=
        List.filterMap_congr (fun j hj => by rw [hsame j hj])
      rw [hred]
      refine ⟨?_, ?_, ?_, ?_, ?_⟩
      · show i :: (massExecute op rest st2).2.succeeded = _
        rw [ih1, hfilter]
        simp [List.filter_cons, hop, Except.toOption]
      · show (massExecute op rest st2).2.failed = _
        rw [ih2, hfmap]
        simp [List.filterMap_cons, hop, Except.toOption]
      · intro j hj
        have hj1 : j ≠ i := fun h => hj (h ▸ List.mem_cons_self i rest)
        have hj2 : j ∉ rest := fun h => hj (List.mem_cons_of_mem _ h)
        show (massExecute op rest st2).1 j = st j
        rw [ih3 j hj2]
        simp [hst2, hj1]
      · intro i2 hi2 s2 hs2
        rcases List.mem_cons.mp hi2 with h | h
        · subst h
          have hss : s' = s2 := Except.ok.inj (hop ▸ hs2)
          show (massExecute op rest st2).1 i2 = s2
          rw [ih3 i2 hni, hst2i, hss]
        · have := ih4 i2 h s2 (by rw [hsame i2 h]; exact hs2)
          exact this
      · intro i2 hi2 e he
        rcases List.mem_cons.mp hi2 with h | h
        · subst h
          rw [hop] at he
          exact absurd he (by simp)
        · have := ih5 i2 h e (by rw [hsame i2 h]; exact he)
          exact ⟨by rw [this.1, hsame i2 h], this.2⟩
    | error e =>
      have hred : massExecute op (i :: rest) st =
          ((massExecute op rest st).1,
           ⟨(massExecute op rest st).2.succeeded,
            (i, e) :: (massExecute op rest st).2.failed⟩) := by
        simp only [massExecute, hop]
      obtain ⟨ih1, ih2, ih3, ih4, ih5⟩ := ih st hnr
      rw [hred]
      refine ⟨?_, ?_, ?_, ?_, ?_⟩
      · show (massExecute op rest st).2.succeeded = _
        rw [ih1]
        simp [List.filter_cons, hop, Except.toOption]
      · show (i, e) :: (massExecute op rest st).2.failed = _
        rw [ih2]
        simp [List.filterMap_cons, hop, Except.toOption]
      · intro j hj
        exact ih3 j (fun h => hj (List.mem_cons_of_mem _ h))
      · intro i2 hi2 s2 hs2
        rcases List.mem_cons.mp hi2 with h | h
        · subst h
          rw [hop] at hs2
          exact absurd hs2 (by simp)
        · exact ih4 i2 h s2 hs2
      · intro i2 hi2 e2 he2
        rcases List.mem_cons.mp hi2 with h | h
        · subst h
          have hee : e = e2 := Except.error.inj (hop ▸ he2)
          subst hee
          exact ⟨ih3 i2 hni, by simp⟩
        · have := ih5 i2 h e2 he2
          exact ⟨this.1, by simp [this.2]⟩

theorem massExecute_length {σ ε : Type} (op : Nat → σ → Except ε σ)
    (st : Nat → σ) (ids : List Nat) :
    (ids.filter (fun i => (op i (st i)).toOption.isSome)).length +
      (ids.filterMap (fun i =>
        match op i (st i) with
        | Except.error e => some (i, e)
        | Except.ok _ => none)).length = ids.length := by
  induction ids with
  | nil => rfl
  | cons i rest ih =>
    cases hop : op i (st i) <;>
      simp [List.filter_cons, List.filterMap_cons, hop, Except.toOption] at ih ⊢ <;> omega

/-! ## Claim theorems -/

/-- C7: for every user, if `inBlacklist` is true then the status the panel
computes for the user is `Banned`, regardless of the `is_banned` flag and of
whatever status value is stored in the API row. -/
theorem c7_blacklist_implies_banned (isBanned : Bool) (stored : Option UserStatus) :
    mappedUserStatus true isBanned stored = UserStatus.Banned := by
  simp [mappedUserStatus]

/-- C5: for every key row carrying an `expiry_date`, the days-left value the
panel computes is exactly `ceil((expiryDate - now) / 1 day)` — the unique
integer `n` with `(n-1)·day < expiryDate - now ≤ n·day` — derived from the
absolute timestamp at query time, not read from any stored field. -/
theorem c5_days_left_derived (d now : Int) :
    ((mappedDaysLeft (some d) now - 1) * dayMs < d - now ∧
      d - now ≤ mappedDaysLeft (some d) now * dayMs) ∧
    (∀ n : Int, (n - 1) * dayMs < d - now → d - now ≤ n * dayMs →
      mappedDaysLeft (some d) now = n) := by
  have hb : (0 : Int) < dayMs := by decide
  constructor
  · exact (jsCeilDiv_eq_iff hb).mp rfl
  · intro n h1 h2
    exact (jsCeilDiv_eq_iff hb).mpr ⟨h1, h2⟩

/-- Witness for C5 at a concrete input: a key expiring exactly one day from
`now = 0` maps to one day left. -/
theorem c5_days_left_derived_witness : mappedDaysLeft (some 86400000) 0 = 1 :=
  (c5_days_left_derived 86400000 0).2 1 (by decide) (by decide)

/-- C8: `isForever` keys use the fixed sentinel 27394 days, so
`expiryDate = now + 27394 days`; the derived days-left one year (365 days)
later is 27029 > 26000; and for any realistic `now` (up to year 2100) the
millisecond arithmetic stays far below `2^53`, so the JS number arithmetic
is exact — no overflow or wrap-around. -/
theorem c8_forever_sentinel (now : Int) :
    (∀ paramsDays : Nat, finalDays true paramsDays = 27394) ∧
    mappedDaysLeft (some (now + 27394 * dayMs)) (now + 365 * dayMs) = 27029 ∧
    (26000 : Int) < 27029 ∧
    (0 ≤ now → now ≤ 4102444800000 → now + 27394 * dayMs < 2 ^ 53) := by
  refine ⟨fun _ => rfl, ?_, by decide, ?_⟩
  · have hb : (0 : Int) < dayMs := by decide
    have ha : now + 27394 * dayMs - (now + 365 * dayMs) = 27029 * dayMs := by ring
    show jsCeilDiv (now + 27394 * dayMs - (now + 365 * dayMs)) dayMs = 27029
    rw [ha]
    refine (jsCeilDiv_eq_iff hb).mpr ⟨?_, le_refl _⟩
    decide
  · intro h1 h2
    have hp : (2 : Int) ^ 53 = 9007199254740992 := by norm_num
    rw [hp]
    unfold dayMs
    omega

/-- Witness for C8 at a concrete `now` (2023-11-14T22:13:20Z in ms). -/
theorem c8_forever_sentinel_witness :
    mappedDaysLeft (some (1700000000000 + 27394 * dayMs)) (1700000000000 + 365 * dayMs) = 27029 ∧
    (1700000000000 : Int) + 27394 * dayMs < 2 ^ 53 :=
  ⟨(c8_forever_sentinel 1700000000000).2.1,
   (c8_forever_sentinel 1700000000000).2.2.2 (by decide) (by decide)⟩

/-- C10: after any sequence of clicks on the trial/forever toggles,
`isTrial` and `isForever` are never both true; whenever `isTrial` is on, the
parameters have been reset to `days = 1, traffic = 5, devices = 1`; and
whenever `isForever` is on, `traffic = 0` (unlimited) and `devices = 10`. -/
theorem c10_modal_toggle_invariant (togs : List ModalToggle) :
    ¬((modalRun togs).isTrial = true ∧ (modalRun togs).isForever = true) ∧
    ((modalRun togs).isTrial = true → (modalRun togs).params = ⟨1, 5, 1⟩) ∧
    ((modalRun togs).isForever = true →
      (modalRun togs).params.traffic = 0 ∧ (modalRun togs).params.devices = 10) :=
  modalFoldl_inv togs modalInit (by simp [ModalInv, modalInit])

/-- C1: `extend(k, days, price)` with the owning user's balance strictly
below `price` returns `InsufficientBalance` and returns the state entirely
unchanged — in particular the user's balance and the key's `expiryDate` read
back exactly as before the call, and no transaction is appended. -/
theorem c1_extend_insufficient_balance (st : CoreState) (keyId : Nat)
    (days price now : Int) (k : KeyRec) (u : UserRec)
    (hk : findKey st keyId = some k) (hu : findUser st k.userId = some u)
    (hlt : u.balance < price) :
    extend st keyId days price now = (st, Except.error CoreError.InsufficientBalance) ∧
    findUser (extend st keyId days price now).1 k.userId = some u ∧
    findKey (extend st keyId days price now).1 keyId = some k ∧
    (extend st keyId days price now).1.txs = st.txs := by
  have h : extend st keyId days price now = (st, Except.error CoreError.InsufficientBalance) := by
    unfold extend
    rw [hk]
    simp only [hu]
    rw [if_pos hlt]
  exact ⟨h, by rw [h]; exact hu, by rw [h]; exact hk, by rw [h]⟩

/-- State for the C1 witness: user 1 holds balance 100, key 7 belongs to
user 1 and expires at t = 999999. -/
def c1State : CoreState :=
  ⟨[(1, ⟨100⟩)], [(7, ⟨1, 999999, false, KeyStatus.Active⟩)], []⟩

/-- Witness for C1: extending key 7 at price 150 against balance 100 fails
with `InsufficientBalance` and leaves the state untouched. -/
theorem c1_extend_insufficient_balance_witness :
    extend c1State 7 30 150 0 = (c1State, Except.error CoreError.InsufficientBalance) :=
  (c1_extend_insufficient_balance c1State 7 30 150 0
    ⟨1, 999999, false, KeyStatus.Active⟩ ⟨100⟩ rfl rfl (by decide)).1

/-- The spec's §8 example registry: three active `vpn` squads with
`(currentUsers, maxUsers, priority)` = (5,10,1), (5,10,2), (9,10,1). -/
def c2Squads : List Squad :=
  [⟨"squad-1", "S1", "vpn", 10, 5, true, 1⟩,
   ⟨"squad-2", "S2", "vpn", 10, 5, true, 2⟩,
   ⟨"squad-3", "S3", "vpn", 10, 9, true, 1⟩]

/-- C2: whatever the Selector returns is an eligible candidate that no other
candidate beats on the lexicographic key (lowest `currentUsers`, then lowest
`priority`, then lexically smallest uuid); in particular, on the three-squad
example registry it picks `squad-1`. -/
theorem c2_selector_least_loaded :
    (∀ (squads : List Squad) (ty : String) (preferred : List String) (s : Squad),
      pickSquad squads ty preferred = some s →
        s ∈ pickCandidates squads ty preferred ∧
        ∀ t ∈ pickCandidates squads ty preferred, ¬ squadKeyLt t s) ∧
    pickUuid c2Squads "vpn" [] = some "squad-1" :=
  ⟨pickSquad_spec, by decide⟩

/-- Witness for C2: on the example registry the chosen squad (`squad-1`) is
a candidate and no candidate strictly precedes it in the selection order. -/
theorem c2_selector_least_loaded_witness :
    (⟨"squad-1", "S1", "vpn", 10, 5, true, 1⟩ : Squad) ∈ pickCandidates c2Squads "vpn" [] ∧
    ∀ t ∈ pickCandidates c2Squads "vpn" [],
      ¬ squadKeyLt t (⟨"squad-1", "S1", "vpn", 10, 5, true, 1⟩ : Squad) :=
  c2_selector_least_loaded.1 c2Squads "vpn" []
    ⟨"squad-1", "S1", "vpn", 10, 5, true, 1⟩ (by decide)

/-- C3: the Selector never returns a squad that is already at capacity: a
picked squad with `maxUsers > 0` has `currentUsers < maxUsers`, so the
assignment it makes (`currentUsers + 1`) still respects
`currentUsers ≤ maxUsers`. -/
theorem c3_selector_capacity (squads : List Squad) (ty : String)
    (preferred : List String) (s : Squad)
    (h : pickSquad squads ty preferred = some s) :
    ¬(0 < s.max_users ∧ s.max_users ≤ s.current_users) ∧
    (0 < s.max_users → s.current_users + 1 ≤ s.max_users) := by
  have hmem := (pickSquad_spec squads ty preferred s h).1
  unfold pickCandidates at hmem
  have hp := List.of_mem_filter hmem
  have hp2 : s.max_users = 0 ∨ s.current_users < s.max_users := by
    simpa using hp
  exact ⟨by omega, by omega⟩

/-- Registry for the C3 witness: a full squad (5 of 5) and a squad with room
(2 of 5), both active `vpn`. -/
def c3Squads : List Squad :=
  [⟨"full", "F", "vpn", 5, 5, true, 1⟩,
   ⟨"ok", "O", "vpn", 5, 2, true, 2⟩]

/-- Witness for C3: with one full squad and one squad with room, the pick
lands on the squad with room, and its post-assignment load stays within
capacity. -/
theorem c3_selector_capacity_witness :
    (⟨"ok", "O", "vpn", 5, 2, true, 2⟩ : Squad).current_users + 1 ≤
      (⟨"ok", "O", "vpn", 5, 2, true, 2⟩ : Squad).max_users :=
  (c3_selector_capacity c3Squads "vpn" [] ⟨"ok", "O", "vpn", 5, 2, true, 2⟩
    (by decide)).2 (by decide)

/-- C4: a key's effective status is `Blocked` whenever the manual-block flag
is set — regardless of `expiryDate`, and in particular still after a
successful time-extension performed while blocked — else `Expired` when
`now ≥ expiryDate`, else `Active`; and it does not depend on the persisted
`status` field. -/
theorem c4_effective_status (k : KeyRec) (now : Int) :
    (k.blocked = true → effectiveStatus k now = KeyStatus.Blocked) ∧
    (k.blocked = false → k.expiryDate ≤ now → effectiveStatus k now = KeyStatus.Expired) ∧
    (k.blocked = false → now < k.expiryDate → effectiveStatus k now = KeyStatus.Active) ∧
    (∀ s : KeyStatus, effectiveStatus { k with storedStatus := s } now = effectiveStatus k now) ∧
    (k.blocked = true → ∀ (st : CoreState) (kid : Nat) (days price n2 : Int) (k2 : KeyRec),
      findKey st kid = some k → (extend st kid days price n2).2 = Except.ok k2 →
      effectiveStatus k2 now = KeyStatus.Blocked) := by
  refine ⟨?_, ?_, ?_, ?_, ?_⟩
  · intro hb
    simp [effectiveStatus, hb]
  · intro hb hexp
    simp [effectiveStatus, hb, hexp]
  · intro hb hexp
    simp [effectiveStatus, hb, not_le.mpr hexp]
  · intro s
    simp [effectiveStatus]
  · intro hb st kid days price n2 k2 hk hok
    have hbl : k2.blocked = k.blocked := extend_ok_blocked st kid days price n2 k k2 hk hok
    simp [effectiveStatus, hbl, hb]

/-- Witness for C4 at concrete keys: a blocked key reads `Blocked` even
though its stored status says `Active`; an unblocked past-expiry key reads
`Expired`; an unblocked future-expiry key reads `Active` even though its
stored status says `Expired`. -/
theorem c4_effective_status_witness :
    effectiveStatus ⟨1, 100, true, KeyStatus.Active⟩ 0 = KeyStatus.Blocked ∧
    effectiveStatus ⟨1, 100, false, KeyStatus.Active⟩ 100 = KeyStatus.Expired ∧
    effectiveStatus ⟨1, 100, false, KeyStatus.Expired⟩ 50 = KeyStatus.Active :=
  ⟨(c4_effective_status ⟨1, 100, true, KeyStatus.Active⟩ 0).1 rfl,
   (c4_effective_status ⟨1, 100, false, KeyStatus.Active⟩ 100).2.1 rfl (by decide),
   (c4_effective_status ⟨1, 100, false, KeyStatus.Expired⟩ 50).2.2.1 rfl (by decide)⟩

/-- C6: a mass action over `N` distinct targets of which `M` single-item
operations fail yields exactly the `N - M` passing ids in `succeeded` (so
`|succeeded| + |failed| = N`) and exactly the `M` failing ids, with their
errors, in `failed`; a failing item never stops later items from being
attempted — every target appears in one of the two lists — and each
succeeded target's final state is exactly what the single-item operation
alone would have produced on it. -/
theorem c6_mass_action_isolation {σ ε : Type} (op : Nat → σ → Except ε σ)
    (ids : List Nat) (st : Nat → σ) (hnd : ids.Nodup) :
    (massExecute op ids st).2.succeeded.length +
      (massExecute op ids st).2.failed.length = ids.length ∧
    (massExecute op ids st).2.succeeded =
      ids.filter (fun i => (op i (st i)).toOption.isSome) ∧
    (massExecute op ids st).2.failed =
      ids.filterMap (fun i =>
        match op i (st i) with
        | Except.error e => some (i, e)
        | Except.ok _ => none) ∧
    (∀ i ∈ ids, ∀ s', op i (st i) = Except.ok s' → (massExecute op ids st).1 i = s') ∧
    (∀ i ∈ ids, ∀ e, op i (st i) = Except.error e → (massExecute op ids st).1 i = st i) := by
  obtain ⟨h1, h2, _, h4, h5⟩ := massExecute_spec op ids st hnd
  refine ⟨?_, h1, h2, h4, fun i hi e he => (h5 i hi e he).1⟩
  rw [h1, h2]
  exact massExecute_length op st ids

/-- Single-item operation for the C6 witness: debit 50 from a balance,
failing with `InsufficientBalance` when the balance is below 50. -/
def c6op (_ : Nat) (b : Int) : Except CoreError Int :=
  if b < 50 then Except.error CoreError.InsufficientBalance else Except.ok (b - 50)

/-- Initial balances for the C6 witness: user 2 has 30, everyone else 100. -/
def c6st (i : Nat) : Int :=
  if i == 2 then 30 else 100

/-- Witness for C6: over targets `[1, 2, 3]` with user 2 unable to pay, the
outcome sizes add up to 3, and user 1's state matches the single-item
debit. -/
theorem c6_mass_action_isolation_witness :
    (massExecute c6op [1, 2, 3] c6st).2.succeeded.length +
      (massExecute c6op [1, 2, 3] c6st).2.failed.length = 3 ∧
    (massExecute c6op [1, 2, 3] c6st).1 1 = 50 :=
  ⟨(c6_mass_action_isolation c6op [1, 2, 3] c6st (by decide)).1,
   (c6_mass_action_isolation c6op [1, 2, 3] c6st (by decide)).2.2.2.1 1 (by decide)
     50 rfl⟩

/-- C9: the mini-app client's `request` makes at most 3 fetch attempts
(`RETRY_MAX = 2` retries after the first); every attempt that was followed by
another had a retryable outcome — HTTP 502/503/504, a network `TypeError`,
or an `AbortError`; and any other non-ok HTTP response throws immediately
after the first attempt, carrying the server-provided `detail` or `message`
(falling back to `HTTP status: statusText`). -/
theorem c9_request_retry_policy (fetchAt : Nat → FetchOutcome) :
    (requestRun fetchAt).2 ≤ 3 ∧
    (∀ i : Nat, i + 1 < (requestRun fetchAt).2 → retryableOutcome (fetchAt i) = true) ∧
    (∀ status detail message statusText,
      fetchAt 0 = FetchOutcome.http status detail message statusText →
      RETRY_STATUSES.contains status = false →
      requestRun fetchAt =
        (Except.error (ReqError.httpError (httpMsg status detail message statusText)), 1)) := by
  refine ⟨requestGo_count_le fetchAt (RETRY_MAX + 1) 0, ?_, ?_⟩
  · intro i h
    have := requestGo_retries_retryable fetchAt (RETRY_MAX + 1) 0 i h
    simpa using this
  · intro status detail message statusText h0 hs
    show requestGo fetchAt (RETRY_MAX + 1) 0 = _
    unfold requestGo
    have hs' : status ∉ RETRY_STATUSES := by simpa using hs
    simp [h0, hs']

/-- Witness for C9: a 500 response with a `detail` field is thrown at once,
after a single fetch, with that detail as the message. -/
theorem c9_request_retry_policy_witness :
    requestRun (fun _ => FetchOutcome.http 500 (some "boom") none "Internal Server Error") =
      (Except.error (ReqError.httpError "boom"), 1) :=
  (c9_request_retry_policy
      (fun _ => FetchOutcome.http 500 (some "boom") none "Internal Server Error")).2.2
    500 (some "boom") none "Internal Server Error" rfl (by decide)

/-- Witness for C10: after one click on the trial toggle the parameters are
reset to `(1, 5, 1)`; after one click on the forever toggle, traffic is 0
and devices is 10. -/
theorem c10_modal_toggle_invariant_witness :
    (modalRun [ModalToggle.trial]).params = ⟨1, 5, 1⟩ ∧
    (modalRun [ModalToggle.forever]).params.traffic = 0 ∧
    (modalRun [ModalToggle.forever]).params.devices = 10 :=
  ⟨(c10_modal_toggle_invariant [ModalToggle.trial]).2.1 (by decide),
   ((c10_modal_toggle_invariant [ModalToggle.forever]).2.2 (by decide)).1,
   ((c10_modal_toggle_invariant [ModalToggle.forever]).2.2 (by decide)).2⟩

end FpBot
